import Mathlib

/-!
Verification of the `printable` crate: a display-formatting wrapper that
renders a cloneable iterator as `left_bound item sep item ... right_bound`.

The iterator stored in the wrapper is embedded as the list of elements it
yields (cloning an iterator yields the same elements in the same order),
each element's `Display` implementation as a function `disp : α → String`,
and the formatter sink as a state machine `σ → String → σ × Option ε`:
each write updates the sink state and may report an error, mirroring
`&mut Formatter` together with `std::fmt::Result`.
-/

/-- The `Printable` wrapper from `src/lib.rs`: the wrapped iterator `data`
    plus the separator and the two bounds. -/
structure Printable (α : Type) where
  data : List α
  sep : String
  left_bound : String
  right_bound : String

/-- Builder `Printable::with_separator`: destructures `self` and rebuilds it with the
    new separator, carrying `data`, `left_bound`, `right_bound` over. -/
def Printable.with_separator (p : Printable α) (sep : String) : Printable α :=
  { data := p.data, sep := sep, left_bound := p.left_bound, right_bound := p.right_bound }

/-- Builder `Printable::with_left_bound`: rebuilds `self` with the new left bound. -/
def Printable.with_left_bound (p : Printable α) (left_bound : String) : Printable α :=
  { data := p.data, sep := p.sep, left_bound := left_bound, right_bound := p.right_bound }

/-- Builder `Printable::with_right_bound`: rebuilds `self` with the new right bound. -/
def Printable.with_right_bound (p : Printable α) (right_bound : String) : Printable α :=
  { data := p.data, sep := p.sep, left_bound := p.left_bound, right_bound := right_bound }

/-- Constructor `AsPrintable::printable`: wraps an iterator with the default
    configuration `sep = ", "`, `left_bound = "["`, `right_bound = "]"`. -/
def printable (data : List α) : Printable α :=
  { data := data, sep := ", ", left_bound := "[", right_bound := "]" }

/-- Conversion `impl From<T> for Printable<'a, T::IntoIter>`: `value.into_iter().printable()`.
    The collection type's `IntoIterator` implementation is the parameter
    `intoIter`, producing the elements the derived cursor yields in order. -/
def printableFrom (intoIter : κ → List α) (value : κ) : Printable α :=
  printable (intoIter value)

/-- A text sink: consumes a fragment, returns the updated sink state and
    `some e` when this write fails (mirrors `Formatter::write_str`). -/
def Sink (σ ε : Type) : Type :=
  σ → String → σ × Option ε

/-- Rust's `?` operator on a write result: on failure return the error with
    the sink state as the failing write left it; on success continue. -/
def andThen (r : σ × Option ε) (k : σ → σ × Option ε) : σ × Option ε :=
  match r with
  | (s, some e) => (s, some e)
  | (s, none) => k s

/-- The `for v in iterator` loop body of `Display::fmt`: for each remaining
    element write the separator then the element, stopping at the first
    failed write (the `?` operator). -/
def fmtLoop (disp : α → String) (sep : String) (w : Sink σ ε) : σ → List α → σ × Option ε
  | s, [] => (s, none)
  | s, v :: rest =>
    andThen (w s sep) fun s =>
      andThen (w s (disp v)) fun s =>
        fmtLoop disp sep w s rest

/-- Rendering `Display::fmt` for `Printable`: write `left_bound`; clone the iterator;
    if it yields a first element write it and run the separator loop over
    the rest; finally write `right_bound` (written in the empty case too).
    Every `?` aborts on failure. -/
def Printable.fmt (disp : α → String) (p : Printable α) (w : Sink σ ε) (s : σ) : σ × Option ε :=
  andThen (w s p.left_bound) fun s =>
    andThen
      (match p.data with
       | [] => (s, none)
       | v :: rest =>
         andThen (w s (disp v)) fun s =>
           fmtLoop disp p.sep w s rest)
      fun s => w s p.right_bound

/-- The in-memory sink: appends every fragment, never fails (this is the
    `format!` / `String` sink a conventional caller renders into). -/
def appendSink : Sink String Empty :=
  fun s frag => (s ++ frag, none)

/-- Rendering to a string: run `fmt` against the in-memory sink. -/
def Printable.render (disp : α → String) (p : Printable α) : String :=
  (p.fmt disp appendSink "").1

/-! ### The sequence of writes performed by `fmt` -/

/-- The fragments written by the separator loop: `sep`, element, `sep`,
    element, … for the elements after the first. -/
def tailWrites (disp : α → String) (sep : String) : List α → List String
  | [] => []
  | v :: rest => sep :: disp v :: tailWrites disp sep rest

/-- The full sequence of fragments `fmt` hands to the sink, in order. -/
def Printable.writes (disp : α → String) (p : Printable α) : List String :=
  p.left_bound ::
    (match p.data with
     | [] => []
     | v :: rest => disp v :: tailWrites disp p.sep rest) ++ [p.right_bound]

/-- Feed a list of fragments to a sink one by one, stopping at the first
    failed write. -/
def writeAll (w : Sink σ ε) : σ → List String → σ × Option ε
  | s, [] => (s, none)
  | s, frag :: rest => andThen (w s frag) fun s => writeAll w s rest

/-- Concatenation of a list of fragments. -/
def joinAll : List String → String
  | [] => ""
  | x :: rest => x ++ joinAll rest

theorem andThen_andThen (r : σ × Option ε) (k₁ k₂ : σ → σ × Option ε) :
    andThen (andThen r k₁) k₂ = andThen r fun s => andThen (k₁ s) k₂ := by
  rcases r with ⟨s, e⟩
  cases e <;> rfl

theorem andThen_id (r : σ × Option ε) : andThen r (fun s => (s, none)) = r := by
  rcases r with ⟨s, e⟩
  cases e <;> rfl

theorem andThen_none (s : σ) (k : σ → σ × Option ε) : andThen (s, none) k = k s := rfl

theorem writeAll_append (w : Sink σ ε) (s : σ) (xs ys : List String) :
    writeAll w s (xs ++ ys) = andThen (writeAll w s xs) fun s => writeAll w s ys := by
  induction xs generalizing s with
  | nil => rfl
  | cons x xs ih =>
    simp only [List.cons_append, List.append_eq, writeAll, ih, andThen_andThen]

theorem fmtLoop_eq_writeAll (disp : α → String) (sep : String) (w : Sink σ ε)
    (s : σ) (l : List α) :
    fmtLoop disp sep w s l = writeAll w s (tailWrites disp sep l) := by
  induction l generalizing s with
  | nil => rfl
  | cons v rest ih =>
    simp only [fmtLoop, tailWrites, writeAll, ih]

/-- Unfolding: `fmt` is exactly `writeAll` over the fragment sequence `writes`. -/
theorem fmt_eq_writeAll (disp : α → String) (p : Printable α) (w : Sink σ ε) (s : σ) :
    p.fmt disp w s = writeAll w s (p.writes disp) := by
  rcases hp : p.data with _ | ⟨v, rest⟩ <;>
    simp only [Printable.fmt, Printable.writes, hp, writeAll, writeAll_append,
      fmtLoop_eq_writeAll, andThen_andThen, andThen_id, andThen_none,
      List.cons_append, List.nil_append, List.append_eq]

/-! ### Rendering to a string -/

theorem writeAll_appendSink (s : String) (l : List String) :
    writeAll appendSink s l = (s ++ joinAll l, none) := by
  induction l generalizing s with
  | nil => simp [writeAll, joinAll, String.append_empty]
  | cons x rest ih =>
    simp [writeAll, appendSink, andThen_none, joinAll, ih, String.append_assoc]

/-- Rendering into the in-memory sink appends exactly the fragment
    concatenation and never fails. -/
theorem fmt_appendSink (disp : α → String) (p : Printable α) (s : String) :
    p.fmt disp appendSink s = (s ++ joinAll (p.writes disp), none) := by
  rw [fmt_eq_writeAll, writeAll_appendSink]

theorem render_eq_joinAll (disp : α → String) (p : Printable α) :
    p.render disp = joinAll (p.writes disp) := by
  simp [Printable.render, fmt_appendSink, String.empty_append]

/-! ### Spec-level descriptions of the rendered body -/

/-- Modelled from the spec: the text forms of the elements in order with
    exactly one separator between each adjacent pair, never before the
    first element or after the last. -/
def sepJoin (sep : String) : List String → String
  | [] => ""
  | [x] => x
  | x :: y :: rest => x ++ (sep ++ sepJoin sep (y :: rest))

theorem joinAll_tailWrites (disp : α → String) (sep : String) (v : α) (rest : List α) :
    joinAll (disp v :: tailWrites disp sep rest) = sepJoin sep ((v :: rest).map disp) := by
  induction rest generalizing v with
  | nil => simp [tailWrites, joinAll, sepJoin, String.append_empty]
  | cons u t ih =>
    rw [tailWrites, joinAll, joinAll, ih u]
    simp only [List.map_cons, sepJoin]

theorem cons_tailWrites_eq_intersperse (disp : α → String) (sep : String)
    (v : α) (rest : List α) :
    disp v :: tailWrites disp sep rest = List.intersperse sep ((v :: rest).map disp) := by
  induction rest generalizing v with
  | nil => rfl
  | cons u t ih =>
    simp only [tailWrites, List.map, List.intersperse_cons_cons, ih]

/-- For nonempty data, `writes` is bounds around the interspersed element
    texts, and `render` is the corresponding concatenation. -/
theorem writes_cons (disp : α → String) (p : Printable α) (v : α) (rest : List α)
    (hp : p.data = v :: rest) :
    p.writes disp =
      p.left_bound :: List.intersperse p.sep (p.data.map disp) ++ [p.right_bound] := by
  simp only [Printable.writes, hp, cons_tailWrites_eq_intersperse]

theorem joinAll_append (xs ys : List String) :
    joinAll (xs ++ ys) = joinAll xs ++ joinAll ys := by
  induction xs with
  | nil => simp [joinAll, String.empty_append]
  | cons x t ih => simp [joinAll, ih, String.append_assoc]

theorem render_cons (disp : α → String) (p : Printable α) (v : α) (rest : List α)
    (hp : p.data = v :: rest) :
    p.render disp = p.left_bound ++ (sepJoin p.sep (p.data.map disp) ++ p.right_bound) := by
  rw [render_eq_joinAll]
  simp only [Printable.writes, hp]
  rw [joinAll_append, joinAll, joinAll_tailWrites]
  simp [joinAll, String.append_empty, String.append_assoc]

/-! ### A sink that fails on a chosen write -/

/-- An in-memory sink that counts writes: `bad n` decides whether the
    `n`-th write (0-based) fails and with which error value. A failing
    write appends nothing and leaves the accumulated content untouched. -/
def failSink (bad : Nat → Option ε) : Sink (Nat × String) ε :=
  fun s frag =>
    match bad s.1 with
    | some e => (s, some e)
    | none => ((s.1 + 1, s.2 ++ frag), none)

theorem writeAll_failSink (bad : Nat → Option ε) (l : List String) :
    ∀ (k n : Nat) (acc : String) (e : ε),
      (∀ i, i < k → bad (n + i) = none) → bad (n + k) = some e → k < l.length →
      writeAll (failSink bad) (n, acc) l =
        ((n + k, acc ++ joinAll (l.take k)), some e) := by
  induction l with
  | nil =>
    intro k n acc e _ _ hlen
    exact absurd hlen (by simp)
  | cons x rest ih =>
    intro k n acc e hlt hk hlen
    cases k with
    | zero =>
      rw [Nat.add_zero] at hk
      simp [writeAll, failSink, hk, andThen, List.take, joinAll, String.append_empty]
    | succ k' =>
      have h0 : bad n = none := by
        have h := hlt 0 (Nat.succ_pos k')
        rwa [Nat.add_zero] at h
      have hlt' : ∀ i, i < k' → bad (n + 1 + i) = none := by
        intro i hi
        have h := hlt (i + 1) (Nat.succ_lt_succ hi)
        rwa [show n + (i + 1) = n + 1 + i by omega] at h
      have hk' : bad (n + 1 + k') = some e := by
        rwa [show n + 1 + k' = n + (k' + 1) by omega]
      have hlen' : k' < rest.length := by
        simpa using Nat.lt_of_succ_lt_succ hlen
      have hrec := ih k' (n + 1) (acc ++ x) e hlt' hk' hlen'
      simp only [writeAll, failSink, h0, andThen_none]
      rw [hrec, show n + 1 + k' = n + (k' + 1) by omega, List.take_succ_cons, joinAll,
        String.append_assoc]

theorem length_intersperse (sep : β) :
    ∀ l : List β, (List.intersperse sep l).length = 2 * l.length - 1
  | [] => rfl
  | [_] => rfl
  | x :: y :: t => by
    rw [List.intersperse_cons_cons]
    have ih := length_intersperse sep (y :: t)
    simp only [List.length_cons] at ih ⊢
    omega

theorem fmt_failSink (disp : α → String) (p : Printable α) (bad : Nat → Option ε)
    (k : Nat) (e : ε)
    (hlt : ∀ i, i < k → bad i = none) (hk : bad k = some e)
    (hlen : k < (p.writes disp).length) :
    p.fmt disp (failSink bad) (0, "") =
      ((k, joinAll ((p.writes disp).take k)), some e) := by
  rw [fmt_eq_writeAll]
  have h := writeAll_failSink bad (p.writes disp) k 0 "" e
    (by intro i hi; rw [Nat.zero_add]; exact hlt i hi)
    (by rwa [Nat.zero_add]) hlen
  rwa [Nat.zero_add, String.empty_append] at h

/-! ## The claims -/

/-- C1: for every at-least-two-element sequence, `fmt` hands the sink exactly
    `left_bound`, then the element texts in traversal order with exactly one
    separator occurrence between each adjacent pair (`List.intersperse`; its
    length `2N - 1` pins the count at `N - 1` separators, none before the
    first element or after the last), then `right_bound`; hence the rendered
    string is the bounds around the separator-joined element texts. -/
theorem render_multi_element (disp : α → String) (p : Printable α)
    (h : 2 ≤ p.data.length) :
    p.writes disp =
        p.left_bound :: List.intersperse p.sep (p.data.map disp) ++ [p.right_bound] ∧
      (List.intersperse p.sep (p.data.map disp)).length = 2 * p.data.length - 1 ∧
      p.render disp = p.left_bound ++ (sepJoin p.sep (p.data.map disp) ++ p.right_bound) := by
  obtain ⟨v, rest, hp⟩ : ∃ v rest, p.data = v :: rest := by
    cases hd : p.data with
    | nil => rw [hd] at h; simp at h
    | cons a t => exact ⟨a, t, rfl⟩
  refine ⟨writes_cons disp p v rest hp, ?_, render_cons disp p v rest hp⟩
  rw [length_intersperse, List.length_map]

/-- Witness for C1 at the two-element sequence `["a", "b"]` rendered with
    the identity element text. -/
theorem render_multi_element_witness :
    2 ≤ (printable ["a", "b"]).data.length ∧
      ((printable ["a", "b"]).writes id =
          (printable ["a", "b"]).left_bound ::
            List.intersperse (printable ["a", "b"]).sep ((printable ["a", "b"]).data.map id) ++
            [(printable ["a", "b"]).right_bound] ∧
        (List.intersperse (printable ["a", "b"]).sep
            ((printable ["a", "b"]).data.map id)).length =
          2 * (printable ["a", "b"]).data.length - 1 ∧
        (printable ["a", "b"]).render id =
          (printable ["a", "b"]).left_bound ++
            (sepJoin (printable ["a", "b"]).sep ((printable ["a", "b"]).data.map id) ++
              (printable ["a", "b"]).right_bound)) :=
  ⟨by decide, render_multi_element id (printable ["a", "b"]) (by decide)⟩

/-- C2: a view over an empty sequence renders exactly
    `left_bound ++ right_bound`, the sink receives exactly those two
    fragments and never a separator, and with the default configuration the
    output is exactly `"[]"`. -/
theorem render_empty (disp : α → String) (p : Printable α) (h : p.data = []) :
    p.render disp = p.left_bound ++ p.right_bound ∧
      p.writes disp = [p.left_bound, p.right_bound] ∧
      (printable ([] : List α)).render disp = "[]" := by
  have hw : p.writes disp = [p.left_bound, p.right_bound] := by
    simp [Printable.writes, h]
  refine ⟨?_, hw, rfl⟩
  rw [render_eq_joinAll, hw]
  simp [joinAll, String.append_empty]

/-- Witness for C2 at the empty `Nat` sequence. -/
theorem render_empty_witness :
    (printable ([] : List Nat)).data = [] ∧
      ((printable ([] : List Nat)).render toString =
          (printable ([] : List Nat)).left_bound ++ (printable ([] : List Nat)).right_bound ∧
        (printable ([] : List Nat)).writes toString =
          [(printable ([] : List Nat)).left_bound, (printable ([] : List Nat)).right_bound] ∧
        (printable ([] : List Nat)).render toString = "[]") :=
  ⟨rfl, render_empty toString (printable ([] : List Nat)) rfl⟩

/-- C3: a view over a one-element sequence `[x]` renders exactly
    `left_bound ++ text(x) ++ right_bound`, the sink receives exactly those
    three fragments and never a separator, and with the default
    configuration the output is exactly `"[" ++ text(x) ++ "]"`. -/
theorem render_single (disp : α → String) (p : Printable α) (x : α) (h : p.data = [x]) :
    p.render disp = p.left_bound ++ (disp x ++ p.right_bound) ∧
      p.writes disp = [p.left_bound, disp x, p.right_bound] ∧
      (printable [x]).render disp = "[" ++ (disp x ++ "]") := by
  have hw : p.writes disp = [p.left_bound, disp x, p.right_bound] := by
    simp [Printable.writes, h, tailWrites]
  have hw' : (printable [x]).writes disp = ["[", disp x, "]"] := by
    simp [Printable.writes, printable, tailWrites]
  refine ⟨?_, hw, ?_⟩
  · rw [render_eq_joinAll, hw]
    simp [joinAll, String.append_empty]
  · rw [render_eq_joinAll, hw']
    simp [joinAll, String.append_empty]

/-- Witness for C3 at the one-element sequence `[5]`. -/
theorem render_single_witness :
    (printable [5]).data = [5] ∧
      ((printable [5]).render toString =
          (printable [5]).left_bound ++ (toString 5 ++ (printable [5]).right_bound) ∧
        (printable [5]).writes toString =
          [(printable [5]).left_bound, toString 5, (printable [5]).right_bound] ∧
        (printable [5]).render toString = "[" ++ (toString 5 ++ "]")) :=
  ⟨rfl, render_single toString (printable [5]) 5 rfl⟩

/-- C4: each builder operation sets exactly its own field to the new value
    and carries the wrapped sequence and the other two configuration fields
    over unchanged; all three are total functions (they cannot fail). -/
theorem with_ops_frame (p : Printable α) (s l r : String) :
    (p.with_separator s).sep = s ∧ (p.with_separator s).data = p.data ∧
      (p.with_separator s).left_bound = p.left_bound ∧
      (p.with_separator s).right_bound = p.right_bound ∧
      (p.with_left_bound l).left_bound = l ∧ (p.with_left_bound l).data = p.data ∧
      (p.with_left_bound l).sep = p.sep ∧
      (p.with_left_bound l).right_bound = p.right_bound ∧
      (p.with_right_bound r).right_bound = r ∧ (p.with_right_bound r).data = p.data ∧
      (p.with_right_bound r).sep = p.sep ∧
      (p.with_right_bound r).left_bound = p.left_bound :=
  ⟨rfl, rfl, rfl, rfl, rfl, rfl, rfl, rfl, rfl, rfl, rfl, rfl⟩

/-- C5: if the sink's `k`-th write fails with error `e` while every earlier
    write succeeds, `fmt` stops at the point of failure and returns the
    sink's error value `e` unchanged (no wrapping, no translation, no
    retry), and the sink retains exactly the already-written output: the
    first `k` fragments, with no rollback. -/
theorem fmt_error_propagation (disp : α → String) (p : Printable α)
    (bad : Nat → Option ε) (k : Nat) (e : ε)
    (hlt : ∀ i, i < k → bad i = none) (hk : bad k = some e)
    (hlen : k < (p.writes disp).length) :
    p.fmt disp (failSink bad) (0, "") =
      ((k, joinAll ((p.writes disp).take k)), some e) :=
  fmt_failSink disp p bad k e hlt hk hlen

/-- Witness for C5: the sink fails on its third write (index 2) while
    rendering `[1, 2]`; `fmt` reports that exact error with `"[1"` written. -/
theorem fmt_error_propagation_witness :
    (∀ i, i < 2 → (fun n => if n = 2 then some () else none) i = none) ∧
      (fun n => if n = 2 then some () else none) 2 = some () ∧
      2 < ((printable [1, 2]).writes toString).length ∧
      (printable [1, 2]).fmt toString (failSink fun n => if n = 2 then some () else none)
          (0, "") =
        ((2, joinAll (((printable [1, 2]).writes toString).take 2)), some ()) :=
  ⟨by decide, by decide, by decide,
    fmt_error_propagation toString (printable [1, 2])
      (fun n => if n = 2 then some () else none) 2 () (by decide) (by decide) (by decide)⟩

/-- C6: rendering is deterministic — two views holding identical sequence
    contents and configuration render to identical text — and rendering is
    a pure read: a second render of the same unmodified view (appending
    into the sink that already holds the first output) appends an identical
    copy. In the embedding `fmt` is a function of the view's fields, which
    mirrors `Display::fmt` taking `&self` and traversing a clone of the
    stored iterator: no render can mutate `data`, `sep`, or the bounds. -/
theorem render_deterministic (disp : α → String) (p q : Printable α)
    (hd : p.data = q.data) (hs : p.sep = q.sep)
    (hl : p.left_bound = q.left_bound) (hr : p.right_bound = q.right_bound) :
    p.render disp = q.render disp ∧
      (p.fmt disp appendSink (p.render disp)).1 = p.render disp ++ p.render disp := by
  constructor
  · rw [render_eq_joinAll, render_eq_joinAll]
    simp [Printable.writes, hd, hs, hl, hr]
  · rw [fmt_appendSink, ← render_eq_joinAll]

/-- Witness for C6 at two structurally equal views over `[1, 2]`. -/
theorem render_deterministic_witness :
    (printable [1, 2]).data = (printable [1, 2]).data ∧
      (printable [1, 2]).sep = (printable [1, 2]).sep ∧
      (printable [1, 2]).left_bound = (printable [1, 2]).left_bound ∧
      (printable [1, 2]).right_bound = (printable [1, 2]).right_bound ∧
      ((printable [1, 2]).render toString = (printable [1, 2]).render toString ∧
        ((printable [1, 2]).fmt toString appendSink ((printable [1, 2]).render toString)).1 =
          (printable [1, 2]).render toString ++ (printable [1, 2]).render toString) :=
  ⟨rfl, rfl, rfl, rfl,
    render_deterministic toString (printable [1, 2]) (printable [1, 2]) rfl rfl rfl rfl⟩

/-- C7: the three configuration operations are independent and composable,
    chainable in any order with last-write-wins per field, and on the
    sequence `[1, 2, 3]`: separator `"."` alone yields `"[1.2.3]"`, left
    bound `"\x7b"` alone yields `"\x7b1, 2, 3]"`, right bound `"\x7d"` alone yields
    `"[1, 2, 3\x7d"`, and all three together — in either chaining order —
    yield `"\x7b1.2.3\x7d"`. -/
theorem config_composable (p : Printable α) (s s' l r : String) :
    (p.with_separator s).with_separator s' = p.with_separator s' ∧
      (p.with_left_bound l).with_left_bound s' = p.with_left_bound s' ∧
      (p.with_right_bound r).with_right_bound s' = p.with_right_bound s' ∧
      (p.with_separator s).with_left_bound l = (p.with_left_bound l).with_separator s ∧
      (p.with_separator s).with_right_bound r = (p.with_right_bound r).with_separator s ∧
      (p.with_left_bound l).with_right_bound r = (p.with_right_bound r).with_left_bound l ∧
      ((printable [1, 2, 3]).with_separator ".").render toString = "[1.2.3]" ∧
      ((printable [1, 2, 3]).with_left_bound "\x7b").render toString = "\x7b1, 2, 3]" ∧
      ((printable [1, 2, 3]).with_right_bound "\x7d").render toString = "[1, 2, 3\x7d" ∧
      ((((printable [1, 2, 3]).with_separator ".").with_left_bound "\x7b").with_right_bound
            "\x7d").render toString = "\x7b1.2.3\x7d" ∧
      ((((printable [1, 2, 3]).with_right_bound "\x7d").with_left_bound "\x7b").with_separator
            ".").render toString = "\x7b1.2.3\x7d" :=
  ⟨rfl, rfl, rfl, rfl, rfl, rfl, by decide, by decide, by decide, by decide, by decide⟩

/-- C8: `printable` wraps any qualifying sequence with the default
    separator `", "`, left bound `"["` and right bound `"]"`, performing no
    validation and no traversal: the stored sequence is the argument
    itself, element for element. -/
theorem printable_defaults (l : List α) :
    (printable l).sep = ", " ∧ (printable l).left_bound = "[" ∧
      (printable l).right_bound = "]" ∧ (printable l).data = l :=
  ⟨rfl, rfl, rfl, rfl⟩

/-- C9: the `From` conversion is exactly `value.into_iter().printable()`:
    the produced view equals wrapping the collection's derived cursor with
    the default configuration, so rendering the converted view equals
    rendering `value.into_iter().printable()`. -/
theorem printableFrom_refines (intoIter : κ → List α) (disp : α → String) (value : κ) :
    printableFrom intoIter value = printable (intoIter value) ∧
      (printableFrom intoIter value).render disp =
        (printable (intoIter value)).render disp :=
  ⟨rfl, rfl⟩

/-- C10: when the sink's `k`-th write fails, the partial content left in
    the sink is a prefix of the full successful rendering — the left bound
    first, then elements and separators strictly in traversal order, and
    nothing beyond the failing fragment. -/
theorem fmt_partial_output_shape (disp : α → String) (p : Printable α)
    (bad : Nat → Option ε) (k : Nat) (e : ε)
    (hlt : ∀ i, i < k → bad i = none) (hk : bad k = some e)
    (hlen : k < (p.writes disp).length) :
    ∃ t : String, (p.fmt disp (failSink bad) (0, "")).1.2 ++ t = p.render disp := by
  refine ⟨joinAll ((p.writes disp).drop k), ?_⟩
  rw [fmt_failSink disp p bad k e hlt hk hlen]
  show joinAll ((p.writes disp).take k) ++ joinAll ((p.writes disp).drop k) = p.render disp
  rw [render_eq_joinAll, ← joinAll_append, List.take_append_drop]

/-- Witness for C10: the sink fails on its second write (index 1) while
    rendering `[7]`; the partial content `"["` extends to the full `"[7]"`. -/
theorem fmt_partial_output_shape_witness :
    (∀ i, i < 1 → (fun n => if n = 1 then some () else none) i = none) ∧
      (fun n => if n = 1 then some () else none) 1 = some () ∧
      1 < ((printable [7]).writes toString).length ∧
      ∃ t : String,
        ((printable [7]).fmt toString (failSink fun n => if n = 1 then some () else none)
                (0, "")).1.2 ++ t =
          (printable [7]).render toString :=
  ⟨by decide, by decide, by decide,
    fmt_partial_output_shape toString (printable [7])
      (fun n => if n = 1 then some () else none) 1 () (by decide) (by decide) (by decide)⟩
